import Mathlib

/-!
Shallow embedding of `tooling/bundler/src/bundle/updater_bundle.rs`:
the updater-archive packaging stage of the bundler.

Filesystem paths are modelled the way Rust's `std::path` presents them:
as the normalized list of components produced by `Path::components()`
(`RootDir`, `CurDir`, `ParentDir` or a normal UTF-8 segment).  Filesystem
state is a finite model (`FS`) threaded explicitly; the `zip`/`tar`
libraries are trusted primitives, so an archive is recorded as the data
handed to them (entries, compression method, permissions, gzip flag)
rather than as an encoded byte stream.  External collaborators that are
out of scope for this core (the MSI/NSIS rebuild toolchains) are oracle
parameters.
-/

namespace TauriUpdater

/-- A component of a Rust `std::path::Path`, as yielded by `components()`. -/
inductive Component where
  | rootDir
  | curDir
  | parentDir
  | normal (s : String)
deriving DecidableEq, Repr

/-- A path is its normalized component list (Unix flavour: no prefixes). -/
abbrev Path := List Component

/-- `PathBuf::push` of a single component: pushing `RootDir` (an absolute
path) replaces the path, any other component is appended. -/
def pushComp (p : Path) (c : Component) : Path :=
  match c with
  | Component.rootDir => [Component.rootDir]
  | c => p ++ [c]

/-- `Path::file_name`: the final component when it is a normal segment. -/
def fileNameOf (p : Path) : Option String :=
  match p.getLast? with
  | some (Component.normal s) => some s
  | _ => none

/-- `Path::parent`: the path without its final component; `None` for the
empty path and for a bare root. -/
def parentOf : Path → Option Path
  | [] => none
  | [Component.rootDir] => none
  | p => some p.dropLast

/-- Split a file name at its last `'.'`, returning the parts before and
after it (mirrors Rust's `rsplit_file_at_dot` split step). -/
def splitAtLastDot : List Char → Option (List Char × List Char)
  | [] => none
  | c :: cs =>
    match splitAtLastDot cs with
    | some (b, a) => some (c :: b, a)
    | none => if c = '.' then some ([], cs) else none

/-- `Path::file_stem` on a file name: the part before the last `'.'`,
except that `".."` and names whose only dot is leading keep the whole
name as the stem. -/
def fileStemOf (name : String) : String :=
  if name = ".." then name
  else
    match splitAtLastDot name.data with
    | none => name
    | some (b, _) => if b = [] then name else String.mk b

/-- `Path::extension` on a file name: the part after the last `'.'`,
`none` when there is no embedded dot or the name is `".."` or starts
with its only dot. -/
def extensionOfName (name : String) : Option String :=
  if name = ".." then none
  else
    match splitAtLastDot name.data with
    | none => none
    | some (b, a) => if b = [] then none else some (String.mk a)

/-- `Path::extension` of a path. -/
def extensionOf (p : Path) : Option String :=
  (fileNameOf p).bind extensionOfName

/-- `PathBuf::with_extension`: replace the final component's extension
(keeping its stem); a path without a file name is returned unchanged. -/
def withExtension (p : Path) (ext : String) : Path :=
  match fileNameOf p with
  | none => p
  | some name =>
    let stem := fileStemOf name
    p.dropLast ++ [Component.normal (if ext = "" then stem else stem ++ "." ++ ext)]

/-- Text of one component inside a displayed path. -/
def componentText : Component → String
  | Component.rootDir => ""
  | Component.curDir => "."
  | Component.parentDir => ".."
  | Component.normal s => s

/-- `Path::display` with the Unix separator. -/
def displayPath : Path → String
  | Component.rootDir :: rest => "/" ++ String.intercalate "/" (rest.map componentText)
  | p => String.intercalate "/" (p.map componentText)

/-- `str::split(sep)` on a single separator character (structural, so
concrete inputs evaluate): adjacent separators yield empty pieces and
the empty string yields one empty piece, exactly as in Rust. -/
def splitOnCharAux (sep : Char) : List Char → List Char → List (List Char)
  | [], cur => [cur.reverse]
  | c :: cs, cur =>
    if c = sep then cur.reverse :: splitOnCharAux sep cs []
    else splitOnCharAux sep cs (c :: cur)

/-- `str::split(sep)` collected into a list. -/
def splitOnChar (sep : Char) (s : String) : List String :=
  (splitOnCharAux sep s.data []).map String.mk

/-- `str::replace(pattern, replacement)` on char lists, fuelled so the
recursion is structural (fuel = input length suffices; the only pattern
used, `"darwin"`, is nonempty, and for a nonempty pattern this scans
left to right replacing each nonoverlapping occurrence as Rust does). -/
def replaceAllFuel (pat rep : List Char) : Nat → List Char → List Char
  | _, [] => []
  | 0, l => l
  | Nat.succ fuel, c :: cs =>
    if pat ≠ [] ∧ pat.isPrefixOf (c :: cs) then
      rep ++ replaceAllFuel pat rep fuel ((c :: cs).drop pat.length)
    else c :: replaceAllFuel pat rep fuel cs

/-- `str::replace` for a nonempty pattern. -/
def rustReplace (s pat rep : String) : String :=
  String.mk (replaceAllFuel pat.data rep.data s.data.length s.data)

/-- Does the path string start with the separator (an absolute path)? -/
def startsWithSlash (s : String) : Bool :=
  match s.data with
  | '/' :: _ => true
  | _ => false

/-- Map one raw path segment to its component. -/
def segToComp (seg : String) : Component :=
  if seg = ".." then Component.parentDir
  else if seg = "." then Component.curDir
  else Component.normal seg

/-- `PathBuf::from` a string: split on the separator and normalize the
way `Path::components()` does (empty segments dropped; `"."` kept only
as the leading component of a relative path). -/
def parsePath (s : String) : Path :=
  let comps := ((splitOnChar '/' s).filter (fun seg => seg ≠ "")).map segToComp
  if startsWithSlash s then
    Component.rootDir :: comps.filter (fun c => c ≠ Component.curDir)
  else
    match comps with
    | Component.curDir :: rest =>
      Component.curDir :: rest.filter (fun c => c ≠ Component.curDir)
    | _ => comps.filter (fun c => c ≠ Component.curDir)

/-- `str::strip_suffix`: drop `suf` from the end of `s` when present. -/
def stripSuffixOpt (s suf : String) : Option String :=
  if suf.data.isSuffixOf s.data then
    some (String.mk (s.data.take (s.data.length - suf.data.length)))
  else none

/-- Modelled from the spec: the output-folder marker constants exported
by the windows bundling module (`bundle::windows`), which is not part of
the analyzed source.  One pair per installer family — a plain output
folder name and its `-updater` variant; the NSIS pair is named in the
spec's rewriting example, the WiX (MSI) pair follows the same
convention. -/
def NSIS_OUTPUT_FOLDER_NAME : String := "nsis"

/-- Modelled from the spec: the NSIS updater-channel marker. -/
def NSIS_UPDATER_OUTPUT_FOLDER_NAME : String := "nsis-updater"

/-- Modelled from the spec: the WiX (MSI) plain output-folder marker. -/
def WIX_OUTPUT_FOLDER_NAME : String := "msi"

/-- Modelled from the spec: the WiX (MSI) updater-channel marker. -/
def WIX_UPDATER_OUTPUT_FOLDER_NAME : String := "msi-updater"

/-- One step of the component fold inside `bundle_update_windows`:
updater markers are emitted with `-updater` stripped (the stripped name
becoming the bundle-name accumulator), plain markers set the accumulator
and are emitted unchanged, everything else passes through.  The
`strip_suffix(..).unwrap()` cannot panic there: both updater markers end
in `-updater`, so the `getD` default is never taken. -/
def rewriteStep (acc : Path × String) (c : Component) : Path × String :=
  match c with
  | Component.normal name =>
    if name = WIX_UPDATER_OUTPUT_FOLDER_NAME ∨ name = NSIS_UPDATER_OUTPUT_FOLDER_NAME then
      let b := (stripSuffixOpt name "-updater").getD name
      (pushComp acc.1 (Component.normal b), b)
    else if name = WIX_OUTPUT_FOLDER_NAME ∨ name = NSIS_OUTPUT_FOLDER_NAME then
      (pushComp acc.1 c, name)
    else
      (pushComp acc.1 c, acc.2)
  | c => (pushComp acc.1 c, acc.2)

/-- The per-artifact destination computed by `bundle_update_windows`:
fold the source components, then replace the extension with
`<bundle_name>.zip`. -/
def rewriteDest (source_path : Path) : Path :=
  let pb := source_path.foldl rewriteStep (([] : Path), "")
  withExtension pb.1 (pb.2 ++ ".zip")

/-- Follows the spec's words (the per-segment rewriting rule): an
updater marker is emitted with its `-updater` suffix stripped, every
other segment is emitted unchanged. -/
def specRewriteSeg : Component → Component
  | Component.normal name =>
    if name = WIX_UPDATER_OUTPUT_FOLDER_NAME ∨ name = NSIS_UPDATER_OUTPUT_FOLDER_NAME then
      Component.normal ((stripSuffixOpt name "-updater").getD name)
    else Component.normal name
  | c => c

/-- Follows the spec's words (the bundle-name accumulator rule): an
updater marker sets the accumulator to its stripped name, a plain
marker sets it to itself, any other segment leaves it unchanged. -/
def specAccStep (b : String) : Component → String
  | Component.normal name =>
    if name = WIX_UPDATER_OUTPUT_FOLDER_NAME ∨ name = NSIS_UPDATER_OUTPUT_FOLDER_NAME then
      (stripSuffixOpt name "-updater").getD name
    else if name = WIX_OUTPUT_FOLDER_NAME ∨ name = NSIS_OUTPUT_FOLDER_NAME then name
    else b
  | _ => b

/-- Follows the spec's words: the bundle name after walking all
segments, starting from the empty string. -/
def specBundleName (source : Path) : String :=
  source.foldl specAccStep ""

/-- Is this segment one of the four recognized marker names? -/
def isMarkerSeg : Component → Bool
  | Component.normal name =>
    decide (name = WIX_UPDATER_OUTPUT_FOLDER_NAME ∨ name = NSIS_UPDATER_OUTPUT_FOLDER_NAME ∨
            name = WIX_OUTPUT_FOLDER_NAME ∨ name = NSIS_OUTPUT_FOLDER_NAME)
  | _ => false

/-- `crate::PackageType` (declared in `bundle/settings.rs`; the closed
set of installer/application kinds named by the spec's data model). -/
inductive PackageType where
  | macOsBundle
  | iosBundle
  | windowsMsi
  | nsis
  | deb
  | rpm
  | appImage
  | dmg
  | updater
deriving DecidableEq, Repr

/-- `crate::bundle::Bundle`: one produced packaging result. -/
structure Bundle where
  package_type : PackageType
  bundle_paths : List Path
deriving DecidableEq, Repr

/-- `WebviewInstallMode` (declared in `bundle/settings.rs`): whether the
installer embeds or fetches the webview runtime at install time.  Payload
fields (silent flag, fixed-runtime path) play no role here. -/
inductive WebviewInstallMode where
  | skip
  | downloadBootstrapper
  | embedBootstrapper
  | offlineInstaller
  | fixedRuntime
deriving DecidableEq, Repr

/-- The slice of `crate::Settings` this core reads: the build target
triple (`settings.target()`) and `settings.windows().webview_install_mode`. -/
structure Settings where
  target : String
  webview_install_mode : WebviewInstallMode
deriving DecidableEq, Repr

/-- `crate::Error` as this core surfaces it: the typed artifact-not-found
error, wrapped collaborator/filesystem failures, and `anyhow` context
wrapping (`with_context`) around a propagated error. -/
inductive Error where
  | unableToFindProject
  | ioFailure (msg : String)
  | context (msg : String) (e : Error)
deriving DecidableEq, Repr

/-- Outcome of running a routine: a `panic!`/`expect` abort, an `Err`
returned to the caller, or an `Ok` value. -/
inductive Outcome (α : Type) where
  | panics (msg : String)
  | error (e : Error)
  | ok (v : α)
deriving DecidableEq, Repr

/-- `zip::CompressionMethod` (only the two relevant tags). -/
inductive CompressionMethod where
  | stored
  | deflated
deriving DecidableEq, Repr

/-- One entry handed to `zip::ZipWriter`: name, compression method,
unix permission bits and the bytes written into it. -/
structure ZipEntry where
  name : String
  compression : CompressionMethod
  unixPermissions : Nat
  data : List Nat
deriving DecidableEq, Repr

/-- The data handed to the trusted `tar`/`libflate` primitives by
`create_tar`: the top-level entry name, the appended source directory,
the `follow_symlinks` setting and whether the stream is gzip-encoded. -/
structure TarArchive where
  topLevel : String
  srcDir : Path
  followSymlinks : Bool
  gzip : Bool
deriving DecidableEq, Repr

/-- Finite filesystem model: regular files with byte contents,
directories, and the archives produced so far (recorded as the data
handed to the trusted zip/tar encoders, keyed by destination path,
newest first). -/
structure FS where
  files : List (Path × List Nat)
  dirs : List Path
  zips : List (Path × List ZipEntry)
  tars : List (Path × TarArchive)
deriving DecidableEq, Repr

/-- First-match lookup of a file's contents. -/
def lookupFile : List (Path × List Nat) → Path → Option (List Nat)
  | [], _ => none
  | (q, v) :: rest, p => if q = p then some v else lookupFile rest p

/-- All `take`-prefixes of a path: the directories (root included) that
exist after `fs::create_dir_all` on it. -/
def pathPrefixes (p : Path) : List Path :=
  (List.range (p.length + 1)).map fun k => p.take k

/-- `fs::create_dir_all`: create the directory and every missing
ancestor. -/
def FS.create_dir_all (fs : FS) (p : Path) : FS :=
  { fs with dirs := fs.dirs ++ pathPrefixes p }

/-- Modelled from the spec: `common::create_file` (the shared helper in
`bundle/common.rs`, not part of the analyzed source) — per the spec's
writer contracts it creates all missing parent directories of the
destination and opens a fresh (truncated) file for writing. -/
def FS.create_file (fs : FS) (p : Path) : FS :=
  let fs' :=
    match parentOf p with
    | some par => fs.create_dir_all par
    | none => fs
  { fs' with files := (p, []) :: fs'.files }

/-- `create_zip`: panic on a missing destination parent or source file
name (the two `expect`s), create the destination's parent directories
and the destination file, then write a single `Stored`, `0o755` entry
named after the source's base name holding the source's full contents.
Opening a missing source file is the model's I/O failure. -/
def create_zip (fs : FS) (src_file dst_file : Path) : Outcome (Path × FS) :=
  match parentOf dst_file with
  | none => Outcome.panics "No data in parent"
  | some parent_dir =>
    let fs1 := fs.create_dir_all parent_dir
    let fs2 := fs1.create_file dst_file
    match fileNameOf src_file with
    | none => Outcome.panics "Can't extract file name from path"
    | some file_name =>
      match lookupFile fs2.files src_file with
      | none => Outcome.error (Error.ioFailure "failed to open src_file")
      | some buffer =>
        Outcome.ok
          (dst_file,
           { fs2 with
             zips := (dst_file, [⟨file_name, CompressionMethod.stored, 0o755, buffer⟩]) :: fs2.zips })

/-- `create_tar`: create the destination file (via `common::create_file`),
then hand the source directory to the gzip-wrapped tar builder with
`follow_symlinks(false)`, its top-level entry named by
`src_dir.file_name().expect(..)` (a panic when absent).  Appending a
path that is not a directory in the model is the I/O failure. -/
def create_tar (fs : FS) (src_dir dest_path : Path) : Outcome (Path × FS) :=
  let fs1 := fs.create_file dest_path
  match fileNameOf src_dir with
  | none => Outcome.panics "Path has no file_name"
  | some name =>
    if src_dir ∈ fs1.dirs then
      Outcome.ok
        (dest_path,
         { fs1 with tars := (dest_path, ⟨name, src_dir, false, true⟩) :: fs1.tars })
    else Outcome.error (Error.ioFailure "failed to append src_dir")

/-- The discovery chain of `bundle_update_macos`: among bundles of type
`MacOsBundle`, the first path whose extension is `app`. -/
def macDiscover (bundles : List Bundle) : Option Path :=
  (bundles.filter fun bundle => decide (bundle.package_type = PackageType.macOsBundle)).findSome?
    fun bundle =>
      bundle.bundle_paths.find? fun path => decide (extensionOf path = some "app")

/-- `bundle_update_macos`: archive the discovered `.app` as
`<path>.tar.gz` (the suffix appended to the displayed path, then
re-parsed), or fail with `UnableToFindProject`. -/
def bundle_update_macos (fs : FS) (bundles : List Bundle) : Outcome (FS × List Path) :=
  match macDiscover bundles with
  | some source_path =>
    let osx_archived : String := displayPath source_path ++ ".tar.gz"
    let osx_archived_path : Path := parsePath osx_archived
    match create_tar fs source_path osx_archived_path with
    | Outcome.panics m => Outcome.panics m
    | Outcome.error e => Outcome.error (Error.context "Failed to tar.gz update directory" e)
    | Outcome.ok (_, fs') => Outcome.ok (fs', [osx_archived_path])
  | none => Outcome.error Error.unableToFindProject

/-- The discovery chain of `bundle_update_linux`: among bundles of type
`AppImage`, the first path whose extension is `AppImage`. -/
def linuxDiscover (bundles : List Bundle) : Option Path :=
  (bundles.filter fun bundle => decide (bundle.package_type = PackageType.appImage)).findSome?
    fun bundle =>
      bundle.bundle_paths.find? fun path => decide (extensionOf path = some "AppImage")

/-- `bundle_update_linux`: archive the discovered AppImage as
`<path>.tar.gz`, or fail with `UnableToFindProject`. -/
def bundle_update_linux (fs : FS) (bundles : List Bundle) : Outcome (FS × List Path) :=
  match linuxDiscover bundles with
  | some source_path =>
    let appimage_archived : String := displayPath source_path ++ ".tar.gz"
    let appimage_archived_path : Path := parsePath appimage_archived
    match create_tar fs source_path appimage_archived_path with
    | Outcome.panics m => Outcome.panics m
    | Outcome.error e => Outcome.error (Error.context "Failed to tar.gz update directory" e)
    | Outcome.ok (_, fs') => Outcome.ok (fs', [appimage_archived_path])
  | none => Outcome.error Error.unableToFindProject

/-- The external installer-toolchain collaborators (out of scope for
this core): the results of `msi::bundle_project settings true` and
`nsis::bundle_project settings true` for the settings of this call. -/
structure Rebuilders where
  msi : Except Error (List Path)
  nsis : Except Error (List Path)

/-- The `rebuild_installers` closure of `bundle_update_windows`: for
each bundle, rebuild its installer family and extend the accumulated
path list; the `WindowsMsi` arm is compiled only on a Windows host
(`cfg(target_os = "windows")`), elsewhere it falls to the catch-all. -/
def rebuild_installers (hostOS : String) (rb : Rebuilders) :
    List Bundle → List Path → Except Error (List Path)
  | [], acc => Except.ok acc
  | bundle :: rest, acc =>
    match bundle.package_type with
    | PackageType.windowsMsi =>
      if hostOS = "windows" then
        match rb.msi with
        | Except.error e => Except.error e
        | Except.ok ps => rebuild_installers hostOS rb rest (acc ++ ps)
      else rebuild_installers hostOS rb rest acc
    | PackageType.nsis =>
      match rb.nsis with
      | Except.error e => Except.error e
      | Except.ok ps => rebuild_installers hostOS rb rest (acc ++ ps)
    | _ => rebuild_installers hostOS rb rest acc

/-- The first half of `bundle_update_windows`: choose the installer
source paths — rebuild when the webview install mode is
`OfflineInstaller`/`EmbedBootstrapper`, otherwise reuse the
`WindowsMsi`/`Nsis` paths already in the bundle list, rebuilding only
when that reused set is empty. -/
def select_installer_paths (hostOS : String) (settings : Settings) (rb : Rebuilders)
    (bundles : List Bundle) : Except Error (List Path) :=
  if (match settings.webview_install_mode with
      | WebviewInstallMode.offlineInstaller => true
      | WebviewInstallMode.embedBootstrapper => true
      | _ => false) then
    rebuild_installers hostOS rb bundles []
  else
    let paths :=
      (bundles.filter fun bundle =>
        match bundle.package_type with
        | PackageType.windowsMsi => true
        | PackageType.nsis => true
        | _ => false).flatMap fun bundle => bundle.bundle_paths
    if paths.isEmpty then rebuild_installers hostOS rb bundles []
    else Except.ok paths

/-- The archiving loop of `bundle_update_windows`: for each source path
in order, rewrite its destination and zip it (wrapping a zip failure in
the `"Failed to zip update bundle"` context), accumulating the archived
paths in processing order; the first failure aborts the loop. -/
def archive_installers (fs : FS) : List Path → Outcome (FS × List Path)
  | [] => Outcome.ok (fs, [])
  | source_path :: rest =>
    let archived_path := rewriteDest source_path
    match create_zip fs source_path archived_path with
    | Outcome.panics m => Outcome.panics m
    | Outcome.error e => Outcome.error (Error.context "Failed to zip update bundle" e)
    | Outcome.ok (_, fs') =>
      match archive_installers fs' rest with
      | Outcome.ok (fs'', paths) => Outcome.ok (fs'', archived_path :: paths)
      | o => o

/-- `bundle_update_windows`: select (or rebuild) the installer sources,
then archive each one. -/
def bundle_update_windows (hostOS : String) (settings : Settings) (rb : Rebuilders)
    (fs : FS) (bundles : List Bundle) : Outcome (FS × List Path) :=
  match select_installer_paths hostOS settings rb bundles with
  | Except.error e => Outcome.error e
  | Except.ok bundle_paths => archive_installers fs bundle_paths

/-- The target-OS derivation at the top of `bundle_project`: the third
hyphen-separated component of the target triple, defaulting to
`std::env::consts::OS` (the host), with `darwin` replaced by `macos`. -/
def targetOsOf (hostOS target : String) : String :=
  rustReplace (((splitOnChar '-' target).get? 2).getD hostOS) "darwin" "macos"

/-- `bundle_project`: dispatch on the derived target OS for Windows;
otherwise the routine is fixed at compile time by `cfg(target_os = ..)`,
i.e. by the host platform the bundler runs on (`hostOS`), with a logged
no-op on hosts that support no update packaging. -/
def bundle_project (hostOS : String) (settings : Settings) (rb : Rebuilders)
    (fs : FS) (bundles : List Bundle) : Outcome (FS × List Path) :=
  let target_os := targetOsOf hostOS settings.target
  if target_os = "windows" then bundle_update_windows hostOS settings rb fs bundles
  else if hostOS = "macos" then bundle_update_macos fs bundles
  else if hostOS = "linux" then bundle_update_linux fs bundles
  else Outcome.ok (fs, [])

/-! Basic bookkeeping lemmas about the filesystem model. -/

lemma create_dir_all_files (fs : FS) (p : Path) :
    (FS.create_dir_all fs p).files = fs.files := rfl

lemma create_dir_all_zips (fs : FS) (p : Path) :
    (FS.create_dir_all fs p).zips = fs.zips := rfl

lemma create_dir_all_tars (fs : FS) (p : Path) :
    (FS.create_dir_all fs p).tars = fs.tars := rfl

lemma create_dir_all_dirs (fs : FS) (p : Path) :
    (FS.create_dir_all fs p).dirs = fs.dirs ++ pathPrefixes p := rfl

lemma create_file_files (fs : FS) (p : Path) :
    (FS.create_file fs p).files = (p, []) :: (match parentOf p with
      | some par => fs.create_dir_all par
      | none => fs).files := rfl

lemma create_file_zips (fs : FS) (p : Path) :
    (FS.create_file fs p).zips = fs.zips := by
  cases h : parentOf p <;> simp [FS.create_file, h, create_dir_all_zips]

lemma create_file_tars (fs : FS) (p : Path) :
    (FS.create_file fs p).tars = fs.tars := by
  cases h : parentOf p <;> simp [FS.create_file, h, create_dir_all_tars]

/-! Characterizations of the archive writers. -/

lemma create_zip_ok {fs fs' : FS} {src dst p : Path}
    (h : create_zip fs src dst = Outcome.ok (p, fs')) :
    p = dst ∧ fs'.tars = fs.tars ∧
    ∃ fn buf, fileNameOf src = some fn ∧
      fs'.zips = (dst, [⟨fn, CompressionMethod.stored, 0o755, buf⟩]) :: fs.zips := by
  cases hpar : parentOf dst with
  | none => simp [create_zip, hpar] at h
  | some pd =>
    cases hfn : fileNameOf src with
    | none => simp [create_zip, hpar, hfn] at h
    | some fn =>
      cases hlk : lookupFile ((FS.create_dir_all fs pd).create_file dst).files src with
      | none => simp [create_zip, hpar, hfn, hlk] at h
      | some buf =>
        simp only [create_zip, hpar, hfn, hlk, Outcome.ok.injEq, Prod.mk.injEq] at h
        obtain ⟨h1, h2⟩ := h
        subst h1
        subst h2
        refine ⟨rfl, ?_, fn, buf, rfl, ?_⟩
        · simp [create_file_tars, create_dir_all_tars]
        · simp [create_file_zips, create_dir_all_zips]

lemma create_tar_ok {fs fs' : FS} {src dest p : Path}
    (h : create_tar fs src dest = Outcome.ok (p, fs')) :
    p = dest ∧ fs'.zips = fs.zips ∧
    ∃ fn, fileNameOf src = some fn ∧
      fs'.tars = (dest, ⟨fn, src, false, true⟩) :: fs.tars := by
  cases hfn : fileNameOf src with
  | none => simp [create_tar, hfn] at h
  | some fn =>
    by_cases hd : src ∈ (fs.create_file dest).dirs
    · simp only [create_tar, hfn, if_pos hd, Outcome.ok.injEq, Prod.mk.injEq] at h
      obtain ⟨h1, h2⟩ := h
      subst h1
      subst h2
      exact ⟨rfl, by simp [create_file_zips], fn, rfl, by simp [create_file_tars]⟩
    · simp [create_tar, hfn, if_neg hd] at h

/-! The archiving loop: on success it archives every source, in order. -/

lemma archive_installers_ok :
    ∀ (srcs : List Path) (fs fs' : FS) (paths : List Path),
      archive_installers fs srcs = Outcome.ok (fs', paths) →
      paths = srcs.map rewriteDest ∧ fs'.tars = fs.tars ∧
      ∃ new, fs'.zips = new ++ fs.zips ∧
        ∀ pr ∈ new, ∀ ze ∈ pr.2, ze.compression = CompressionMethod.stored := by
  intro srcs
  induction srcs with
  | nil =>
    intro fs fs' paths h
    simp only [archive_installers, Outcome.ok.injEq, Prod.mk.injEq] at h
    obtain ⟨h1, h2⟩ := h
    subst h1
    subst h2
    exact ⟨rfl, rfl, [], rfl, by simp⟩
  | cons src rest ih =>
    intro fs fs' paths h
    cases hz : create_zip fs src (rewriteDest src) with
    | panics m => simp [archive_installers, hz] at h
    | error e => simp [archive_installers, hz] at h
    | ok pr =>
      obtain ⟨q, fs1⟩ := pr
      simp only [archive_installers, hz] at h
      cases hrec : archive_installers fs1 rest with
      | panics m => simp [hrec] at h
      | error e => simp [hrec] at h
      | ok pr2 =>
        obtain ⟨fs2, ps⟩ := pr2
        simp only [hrec, Outcome.ok.injEq, Prod.mk.injEq] at h
        obtain ⟨h1, h2⟩ := h
        subst h1
        subst h2
        obtain ⟨hps, htars, new2, hzips, hstored⟩ := ih fs1 fs2 ps hrec
        obtain ⟨-, htars1, fn, buf, -, hzips1⟩ := create_zip_ok hz
        refine ⟨by simp [hps], by rw [htars, htars1], ?_⟩
        refine ⟨new2 ++ [(rewriteDest src, [⟨fn, CompressionMethod.stored, 0o755, buf⟩])], ?_, ?_⟩
        · rw [hzips, hzips1]
          simp
        · intro pr hpr ze hze
          rcases List.mem_append.mp hpr with hl | hr
          · exact hstored pr hl ze hze
          · simp only [List.mem_singleton] at hr
            subst hr
            simp only [List.mem_singleton] at hze
            subst hze
            rfl

/-- A zip failure on the first pending source aborts the whole loop
with the wrapping context. -/
lemma archive_installers_error {fs : FS} {source : Path} (rest : List Path) {e : Error}
    (h : create_zip fs source (rewriteDest source) = Outcome.error e) :
    archive_installers fs (source :: rest) =
      Outcome.error (Error.context "Failed to zip update bundle" e) := by
  simp only [archive_installers, h]

/-! The rebuild closure and installer-path selection. -/

lemma rebuild_installers_no_installers {hostOS : String} {rb : Rebuilders} :
    ∀ (bs : List Bundle),
      (∀ b ∈ bs, b.package_type ≠ PackageType.windowsMsi ∧ b.package_type ≠ PackageType.nsis) →
      ∀ acc, rebuild_installers hostOS rb bs acc = Except.ok acc := by
  intro bs
  induction bs with
  | nil => intro _ acc; rfl
  | cons b rest ih =>
    intro h acc
    have hb := h b (List.mem_cons_self _ _)
    have hrest : ∀ b ∈ rest, b.package_type ≠ PackageType.windowsMsi ∧ b.package_type ≠ PackageType.nsis :=
      fun x hx => h x (List.mem_cons_of_mem _ hx)
    cases hp : b.package_type <;>
      simp only [rebuild_installers, hp] <;>
      first
        | exact absurd hp hb.1
        | exact absurd hp hb.2
        | exact ih hrest acc

lemma rebuild_installers_only_types {hostOS : String} {rb : Rebuilders} :
    ∀ (bs bs' : List Bundle),
      bs.map Bundle.package_type = bs'.map Bundle.package_type →
      ∀ acc, rebuild_installers hostOS rb bs acc = rebuild_installers hostOS rb bs' acc := by
  intro bs
  induction bs with
  | nil =>
    intro bs' h acc
    rw [List.map_nil] at h
    have : bs' = [] := by
      cases bs' with
      | nil => rfl
      | cons x xs => simp at h
    subst this
    rfl
  | cons b rest ih =>
    intro bs' h acc
    cases bs' with
    | nil => simp at h
    | cons b' rest' =>
      simp only [List.map_cons, List.cons.injEq] at h
      obtain ⟨h1, h2⟩ := h
      simp only [rebuild_installers, h1]
      cases b'.package_type with
      | windowsMsi =>
        by_cases hw : hostOS = "windows"
        · simp only [if_pos hw]
          cases rb.msi with
          | error e => rfl
          | ok ps => exact ih rest' h2 (acc ++ ps)
        · simp only [if_neg hw]
          exact ih rest' h2 acc
      | nsis =>
        cases rb.nsis with
        | error e => rfl
        | ok ps => exact ih rest' h2 (acc ++ ps)
      | macOsBundle => exact ih rest' h2 acc
      | iosBundle => exact ih rest' h2 acc
      | deb => exact ih rest' h2 acc
      | rpm => exact ih rest' h2 acc
      | appImage => exact ih rest' h2 acc
      | dmg => exact ih rest' h2 acc
      | updater => exact ih rest' h2 acc

lemma select_installer_paths_offline {hostOS : String} {settings : Settings} {rb : Rebuilders}
    {bundles : List Bundle}
    (h : settings.webview_install_mode = WebviewInstallMode.offlineInstaller ∨
         settings.webview_install_mode = WebviewInstallMode.embedBootstrapper) :
    select_installer_paths hostOS settings rb bundles = rebuild_installers hostOS rb bundles [] := by
  rcases h with h | h <;> simp [select_installer_paths, h]

lemma select_installer_paths_reuse {hostOS : String} {settings : Settings} {rb : Rebuilders}
    {bundles : List Bundle}
    (h1 : settings.webview_install_mode ≠ WebviewInstallMode.offlineInstaller)
    (h2 : settings.webview_install_mode ≠ WebviewInstallMode.embedBootstrapper) :
    select_installer_paths hostOS settings rb bundles =
      (if ((bundles.filter fun bundle =>
              match bundle.package_type with
              | PackageType.windowsMsi => true
              | PackageType.nsis => true
              | _ => false).flatMap fun bundle => bundle.bundle_paths).isEmpty then
         rebuild_installers hostOS rb bundles []
       else
         Except.ok ((bundles.filter fun bundle =>
             match bundle.package_type with
             | PackageType.windowsMsi => true
             | PackageType.nsis => true
             | _ => false).flatMap fun bundle => bundle.bundle_paths)) := by
  cases hm : settings.webview_install_mode <;>
    simp only [select_installer_paths, hm] <;>
    first
      | rfl
      | exact absurd hm h1
      | exact absurd hm h2

/-! Discovery: the nested filter/find chain picks the first match of the
flattened, ordered candidate list. -/

lemma findSome?_find?_flatMap (f : Bundle → List Path) (q : Path → Bool) :
    ∀ l : List Bundle,
      (l.findSome? fun b => (f b).find? q) = (l.flatMap f).find? q := by
  intro l
  induction l with
  | nil => rfl
  | cons b t ih =>
    rw [List.flatMap_cons, List.find?_append, List.findSome?_cons]
    cases h : (f b).find? q with
    | none => exact ih
    | some v => rfl

/-! The component fold of `bundle_update_windows` walks segments in
order, acting on each independently (for paths whose root, if any, is
leading — the only shape `components()` produces). -/

lemma rewriteStep_eq_spec (p : Path) (b : String) (c : Component) (hc : c ≠ Component.rootDir) :
    rewriteStep (p, b) c = (p ++ [specRewriteSeg c], specAccStep b c) := by
  cases c with
  | rootDir => exact absurd rfl hc
  | curDir => rfl
  | parentDir => rfl
  | normal name =>
    simp only [rewriteStep, specRewriteSeg, specAccStep, pushComp]
    split_ifs <;> rfl

lemma rewriteStep_nil_eq_spec (b : String) (c : Component) :
    rewriteStep (([] : Path), b) c = ([specRewriteSeg c], specAccStep b c) := by
  cases c with
  | rootDir => rfl
  | curDir => rfl
  | parentDir => rfl
  | normal name =>
    simp only [rewriteStep, specRewriteSeg, specAccStep, pushComp]
    split_ifs <;> rfl

lemma rewrite_foldl_eq_spec :
    ∀ (cs : List Component), Component.rootDir ∉ cs →
      ∀ (p₀ : Path) (b₀ : String),
        cs.foldl rewriteStep (p₀, b₀) =
          (p₀ ++ cs.map specRewriteSeg, cs.foldl specAccStep b₀) := by
  intro cs
  induction cs with
  | nil => intro _ p₀ b₀; simp
  | cons c rest ih =>
    intro h p₀ b₀
    have hc : c ≠ Component.rootDir := fun hh => h (hh ▸ List.mem_cons_self _ _)
    have hrest : Component.rootDir ∉ rest := fun hm => h (List.mem_cons_of_mem _ hm)
    rw [List.foldl_cons, rewriteStep_eq_spec p₀ b₀ c hc, ih hrest, List.map_cons,
      List.foldl_cons, List.append_assoc]
    rfl

lemma not_marker_normal {name : String}
    (h : isMarkerSeg (Component.normal name) = false) :
    ¬(name = WIX_UPDATER_OUTPUT_FOLDER_NAME ∨ name = NSIS_UPDATER_OUTPUT_FOLDER_NAME) ∧
    ¬(name = WIX_OUTPUT_FOLDER_NAME ∨ name = NSIS_OUTPUT_FOLDER_NAME) := by
  simp only [isMarkerSeg, decide_eq_false_iff_not] at h
  push_neg at h
  exact ⟨fun hor => hor.elim h.1 h.2.1, fun hor => hor.elim h.2.2.1 h.2.2.2⟩

lemma specRewriteSeg_of_not_marker {c : Component} (h : isMarkerSeg c = false) :
    specRewriteSeg c = c := by
  cases c with
  | rootDir => rfl
  | curDir => rfl
  | parentDir => rfl
  | normal name =>
    obtain ⟨h1, _⟩ := not_marker_normal h
    simp [specRewriteSeg, h1]

lemma specAccStep_of_not_marker {c : Component} (h : isMarkerSeg c = false) (b : String) :
    specAccStep b c = b := by
  cases c with
  | rootDir => rfl
  | curDir => rfl
  | parentDir => rfl
  | normal name =>
    obtain ⟨h1, h2⟩ := not_marker_normal h
    simp [specAccStep, h1, h2]

lemma foldl_specAccStep_of_no_marker :
    ∀ (source : Path), (∀ c ∈ source, isMarkerSeg c = false) →
      ∀ b₀, source.foldl specAccStep b₀ = b₀ := by
  intro source
  induction source with
  | nil => intro _ b₀; rfl
  | cons c rest ih =>
    intro h b₀
    rw [List.foldl_cons, specAccStep_of_not_marker (h c (List.mem_cons_self _ _))]
    exact ih (fun x hx => h x (List.mem_cons_of_mem _ hx)) b₀

lemma map_specRewriteSeg_of_no_marker :
    ∀ (source : Path), (∀ c ∈ source, isMarkerSeg c = false) →
      source.map specRewriteSeg = source := by
  intro source
  induction source with
  | nil => intro _; rfl
  | cons c rest ih =>
    intro h
    rw [List.map_cons, specRewriteSeg_of_not_marker (h c (List.mem_cons_self _ _)),
      ih (fun x hx => h x (List.mem_cons_of_mem _ hx))]

/-- C3: for every Windows source path (with its root, if any, leading —
the only shape `Path::components()` yields), the rewriter walks the
segments in order: an updater marker is emitted with `-updater`
stripped and that stripped name becomes the bundle-name accumulator, a
plain output-folder marker sets the accumulator but is emitted
unchanged, all other segments pass through unchanged; afterwards the
destination's extension is replaced with `<bundle_name>.zip`, and when
no marker segment was seen the bundle name is the empty string and the
extension argument becomes `.zip` — an accepted result, not an error. -/
theorem windows_rewrite_walk (source : Path) (h : Component.rootDir ∉ source.tail) :
    rewriteDest source =
      withExtension (source.map specRewriteSeg) (specBundleName source ++ ".zip") ∧
    ((∀ c ∈ source, isMarkerSeg c = false) →
      specBundleName source = "" ∧ rewriteDest source = withExtension source ".zip") := by
  have hfold : source.foldl rewriteStep (([] : Path), "") =
      (source.map specRewriteSeg, specBundleName source) := by
    cases source with
    | nil => rfl
    | cons c cs =>
      have hcs : Component.rootDir ∉ cs := h
      rw [List.foldl_cons, rewriteStep_nil_eq_spec, rewrite_foldl_eq_spec cs hcs,
        List.map_cons]
      simp [specBundleName]
  have hmain : rewriteDest source =
      withExtension (source.map specRewriteSeg) (specBundleName source ++ ".zip") := by
    simp only [rewriteDest, hfold]
  refine ⟨hmain, fun hnm => ?_⟩
  have hb : specBundleName source = "" := foldl_specAccStep_of_no_marker source hnm ""
  have hm : source.map specRewriteSeg = source := map_specRewriteSeg_of_no_marker source hnm
  refine ⟨hb, ?_⟩
  rw [hmain, hb, hm]
  have : ("" : String) ++ ".zip" = ".zip" := by decide
  rw [this]

/-- Witness for C3 at the spec's own example path. -/
theorem windows_rewrite_walk_witness :
    rewriteDest [Component.normal "windows", Component.normal "nsis-updater",
                 Component.normal "en-US", Component.normal "App.exe"] =
      withExtension
        ([Component.normal "windows", Component.normal "nsis-updater",
          Component.normal "en-US", Component.normal "App.exe"].map specRewriteSeg)
        (specBundleName [Component.normal "windows", Component.normal "nsis-updater",
                         Component.normal "en-US", Component.normal "App.exe"] ++ ".zip") ∧
    ((∀ c ∈ [Component.normal "windows", Component.normal "nsis-updater",
             Component.normal "en-US", Component.normal "App.exe"], isMarkerSeg c = false) →
      specBundleName [Component.normal "windows", Component.normal "nsis-updater",
                      Component.normal "en-US", Component.normal "App.exe"] = "" ∧
      rewriteDest [Component.normal "windows", Component.normal "nsis-updater",
                   Component.normal "en-US", Component.normal "App.exe"] =
        withExtension [Component.normal "windows", Component.normal "nsis-updater",
                       Component.normal "en-US", Component.normal "App.exe"] ".zip") :=
  windows_rewrite_walk
    [Component.normal "windows", Component.normal "nsis-updater",
     Component.normal "en-US", Component.normal "App.exe"] (by decide)

/-- C2 is false as stated: on the spec's example segments the rewritten
destination is NOT `.../windows/nsis/en-US/App.zip`. -/
theorem nsis_updater_rewrite_claim_false :
    rewriteDest [Component.normal "windows", Component.normal "nsis-updater",
                 Component.normal "en-US", Component.normal "App.exe"] ≠
      [Component.normal "windows", Component.normal "nsis",
       Component.normal "en-US", Component.normal "App.zip"] := by decide

/-- C2 (amended): on segments `windows/nsis-updater/en-US/App.exe` the
rewriter collapses the marker into `nsis` and replaces the extension
`exe` with `nsis.zip`, producing `windows/nsis/en-US/App.nsis.zip`. -/
theorem nsis_updater_rewrite_example :
    rewriteDest [Component.normal "windows", Component.normal "nsis-updater",
                 Component.normal "en-US", Component.normal "App.exe"] =
      [Component.normal "windows", Component.normal "nsis",
       Component.normal "en-US", Component.normal "App.nsis.zip"] := by decide

/-- C5: macOS/Linux artifact discovery selects exactly the first path,
in bundle-list order then path-list order, among bundles of the required
package type with the expected extension; discovery is a pure function,
so re-running it on the same input yields the same artifact. -/
theorem discovery_first_match :
    (∀ bundles : List Bundle,
       macDiscover bundles =
         ((bundles.filter fun bundle =>
             decide (bundle.package_type = PackageType.macOsBundle)).flatMap
            fun bundle => bundle.bundle_paths).find?
           (fun path => decide (extensionOf path = some "app"))) ∧
    (∀ bundles : List Bundle,
       linuxDiscover bundles =
         ((bundles.filter fun bundle =>
             decide (bundle.package_type = PackageType.appImage)).flatMap
            fun bundle => bundle.bundle_paths).find?
           (fun path => decide (extensionOf path = some "AppImage"))) ∧
    (∀ bundles : List Bundle,
       macDiscover bundles = macDiscover bundles ∧
       linuxDiscover bundles = linuxDiscover bundles) := by
  refine ⟨fun bundles => ?_, fun bundles => ?_, fun _ => ⟨rfl, rfl⟩⟩
  · exact findSome?_find?_flatMap (fun b => b.bundle_paths) _ _
  · exact findSome?_find?_flatMap (fun b => b.bundle_paths) _ _

/-- C1 is false as stated: a Windows-target invocation of
`bundle_project` with an empty bundle list returns a successful empty
path list, not an `ArtifactNotFound` failure. -/
theorem windows_empty_success_counterexample :
    bundle_project "windows" ⟨"x86_64-pc-windows-msvc", WebviewInstallMode.downloadBootstrapper⟩
      ⟨Except.ok [], Except.ok []⟩ ⟨[], [], [], []⟩ [] =
      Outcome.ok (⟨[], [], [], []⟩, []) := by decide

/-- C1 (amended): on macOS/Linux a failed discovery is an immediate
`UnableToFindProject` failure; on Windows, when no bundle of type
`WindowsMsi`/`Nsis` is present (in particular for an empty bundle list)
the rebuild closure rebuilds nothing and the call returns a successful
empty path list rather than failing. -/
theorem missing_artifact_policy :
    (∀ (fs : FS) (bundles : List Bundle), macDiscover bundles = none →
       bundle_update_macos fs bundles = Outcome.error Error.unableToFindProject) ∧
    (∀ (fs : FS) (bundles : List Bundle), linuxDiscover bundles = none →
       bundle_update_linux fs bundles = Outcome.error Error.unableToFindProject) ∧
    (∀ (hostOS : String) (settings : Settings) (rb : Rebuilders) (fs : FS)
       (bundles : List Bundle),
       (∀ b ∈ bundles,
          b.package_type ≠ PackageType.windowsMsi ∧ b.package_type ≠ PackageType.nsis) →
       bundle_update_windows hostOS settings rb fs bundles = Outcome.ok (fs, [])) := by
  refine ⟨fun fs bundles h => by simp [bundle_update_macos, h],
          fun fs bundles h => by simp [bundle_update_linux, h], ?_⟩
  intro hostOS settings rb fs bundles h
  have hreb : ∀ acc, rebuild_installers hostOS rb bundles acc = Except.ok acc :=
    rebuild_installers_no_installers bundles h
  have hfil : (bundles.filter fun bundle =>
      match bundle.package_type with
      | PackageType.windowsMsi => true
      | PackageType.nsis => true
      | _ => false) = [] := by
    rw [List.filter_eq_nil_iff]
    intro b hb
    obtain ⟨h1, h2⟩ := h b hb
    cases hp : b.package_type
    case windowsMsi => exact fun _ => h1 hp
    case nsis => exact fun _ => h2 hp
    all_goals simp
  have hsel : select_installer_paths hostOS settings rb bundles = Except.ok [] := by
    by_cases hoe : settings.webview_install_mode = WebviewInstallMode.offlineInstaller ∨
        settings.webview_install_mode = WebviewInstallMode.embedBootstrapper
    · rw [select_installer_paths_offline hoe, hreb]
    · push_neg at hoe
      rw [select_installer_paths_reuse hoe.1 hoe.2, hfil]
      simp [hreb]
  simp [bundle_update_windows, hsel, archive_installers]

/-- Witness for C1 at concrete inputs: a Windows call with no installer
bundles succeeds with an empty list, and a macOS call with no bundles
fails with `UnableToFindProject`. -/
theorem missing_artifact_policy_witness :
    bundle_update_windows "windows" ⟨"x86_64-pc-windows-msvc", WebviewInstallMode.skip⟩
      ⟨Except.ok [], Except.ok []⟩ ⟨[], [], [], []⟩ [] =
      Outcome.ok (⟨[], [], [], []⟩, []) ∧
    bundle_update_macos ⟨[], [], [], []⟩ [] = Outcome.error Error.unableToFindProject :=
  ⟨missing_artifact_policy.2.2 "windows" ⟨"x86_64-pc-windows-msvc", WebviewInstallMode.skip⟩
     ⟨Except.ok [], Except.ok []⟩ ⟨[], [], [], []⟩ [] (by simp),
   missing_artifact_policy.1 ⟨[], [], [], []⟩ [] (by decide)⟩

/-- C4 is false as stated: with target triple `x86_64-unknown-freebsd`
(target OS `freebsd`, which the claim says yields a successful empty
result) a bundler running on a macOS host runs the macOS routine and
fails with `UnableToFindProject`. -/
theorem dispatch_by_host_counterexample :
    bundle_project "macos" ⟨"x86_64-unknown-freebsd", WebviewInstallMode.skip⟩
      ⟨Except.ok [], Except.ok []⟩ ⟨[], [], [], []⟩ [] =
      Outcome.error Error.unableToFindProject := by decide

/-- C4 (amended): the target OS is derived as the third
hyphen-separated component of the triple, defaulting to the host OS and
normalizing `darwin` to `macos`; a target OS of `windows` dispatches to
the Windows routine, but otherwise the routine is fixed by the host
platform the bundler runs on: a macOS host runs the macOS routine, a
Linux host the Linux routine, and any other host returns a successful
empty result with a logged message — regardless of the non-Windows
target OS. -/
theorem bundle_project_dispatch (hostOS : String) (settings : Settings) (rb : Rebuilders)
    (fs : FS) (bundles : List Bundle) :
    (targetOsOf hostOS settings.target = "windows" →
       bundle_project hostOS settings rb fs bundles =
         bundle_update_windows hostOS settings rb fs bundles) ∧
    (targetOsOf hostOS settings.target ≠ "windows" →
       (hostOS = "macos" →
          bundle_project hostOS settings rb fs bundles = bundle_update_macos fs bundles) ∧
       (hostOS = "linux" →
          bundle_project hostOS settings rb fs bundles = bundle_update_linux fs bundles) ∧
       (hostOS ≠ "macos" → hostOS ≠ "linux" →
          bundle_project hostOS settings rb fs bundles = Outcome.ok (fs, []))) := by
  constructor
  · intro h
    simp [bundle_project, h]
  · intro h
    refine ⟨fun hm => ?_, fun hl => ?_, fun hm hl => ?_⟩
    · subst hm
      simp [bundle_project, h]
    · subst hl
      simp [bundle_project, h]
    · simp [bundle_project, h, hm, hl]

/-- Witness for C4: a Windows target triple on a Linux host dispatches
to the Windows routine. -/
theorem bundle_project_dispatch_witness :
    bundle_project "linux" ⟨"x86_64-pc-windows-msvc", WebviewInstallMode.skip⟩
      ⟨Except.ok [], Except.ok []⟩ ⟨[], [], [], []⟩ [] =
      bundle_update_windows "linux" ⟨"x86_64-pc-windows-msvc", WebviewInstallMode.skip⟩
        ⟨Except.ok [], Except.ok []⟩ ⟨[], [], [], []⟩ [] :=
  (bundle_project_dispatch "linux" ⟨"x86_64-pc-windows-msvc", WebviewInstallMode.skip⟩
    ⟨Except.ok [], Except.ok []⟩ ⟨[], [], [], []⟩ []).1 (by decide)

/-- C6: each routine uses exactly one archive format.  The Windows
routine leaves the tar trace unchanged and only adds zip archives, all
of whose entries use `Stored` (no compression); the macOS/Linux
routines leave the zip trace unchanged and add exactly one
gzip-compressed tar archive whose destination path is the discovered
source path with `.tar.gz` appended. -/
theorem archive_format_per_target :
    (∀ (hostOS : String) (settings : Settings) (rb : Rebuilders) (fs : FS)
       (bundles : List Bundle) (fs' : FS) (paths : List Path),
       bundle_update_windows hostOS settings rb fs bundles = Outcome.ok (fs', paths) →
       fs'.tars = fs.tars ∧
       ∃ new, fs'.zips = new ++ fs.zips ∧
         ∀ pr ∈ new, ∀ ze ∈ pr.2, ze.compression = CompressionMethod.stored) ∧
    (∀ (fs : FS) (bundles : List Bundle) (fs' : FS) (paths : List Path),
       bundle_update_macos fs bundles = Outcome.ok (fs', paths) →
       fs'.zips = fs.zips ∧
       ∃ src fn, macDiscover bundles = some src ∧ fileNameOf src = some fn ∧
         paths = [parsePath (displayPath src ++ ".tar.gz")] ∧
         fs'.tars =
           (parsePath (displayPath src ++ ".tar.gz"), ⟨fn, src, false, true⟩) :: fs.tars) ∧
    (∀ (fs : FS) (bundles : List Bundle) (fs' : FS) (paths : List Path),
       bundle_update_linux fs bundles = Outcome.ok (fs', paths) →
       fs'.zips = fs.zips ∧
       ∃ src fn, linuxDiscover bundles = some src ∧ fileNameOf src = some fn ∧
         paths = [parsePath (displayPath src ++ ".tar.gz")] ∧
         fs'.tars =
           (parsePath (displayPath src ++ ".tar.gz"), ⟨fn, src, false, true⟩) :: fs.tars) := by
  refine ⟨?_, ?_, ?_⟩
  · intro hostOS settings rb fs bundles fs' paths h
    cases hs : select_installer_paths hostOS settings rb bundles with
    | error e => simp [bundle_update_windows, hs] at h
    | ok srcs =>
      simp only [bundle_update_windows, hs] at h
      obtain ⟨-, htars, new, hz, hst⟩ := archive_installers_ok srcs fs fs' paths h
      exact ⟨htars, new, hz, hst⟩
  · intro fs bundles fs' paths h
    cases hd : macDiscover bundles with
    | none => simp [bundle_update_macos, hd] at h
    | some src =>
      simp only [bundle_update_macos, hd] at h
      cases ht : create_tar fs src (parsePath (displayPath src ++ ".tar.gz")) with
      | panics m => simp [ht] at h
      | error e => simp [ht] at h
      | ok pr =>
        obtain ⟨q, fs1⟩ := pr
        simp only [ht, Outcome.ok.injEq, Prod.mk.injEq] at h
        obtain ⟨h1, h2⟩ := h
        subst h1
        subst h2
        obtain ⟨-, hzips, fn, hfn, htars⟩ := create_tar_ok ht
        exact ⟨hzips, src, fn, rfl, hfn, rfl, htars⟩
  · intro fs bundles fs' paths h
    cases hd : linuxDiscover bundles with
    | none => simp [bundle_update_linux, hd] at h
    | some src =>
      simp only [bundle_update_linux, hd] at h
      cases ht : create_tar fs src (parsePath (displayPath src ++ ".tar.gz")) with
      | panics m => simp [ht] at h
      | error e => simp [ht] at h
      | ok pr =>
        obtain ⟨q, fs1⟩ := pr
        simp only [ht, Outcome.ok.injEq, Prod.mk.injEq] at h
        obtain ⟨h1, h2⟩ := h
        subst h1
        subst h2
        obtain ⟨-, hzips, fn, hfn, htars⟩ := create_tar_ok ht
        exact ⟨hzips, src, fn, rfl, hfn, rfl, htars⟩

/-- Witness for C6: a Windows run over one NSIS bundle (its installer
at `bundle/nsis/App-setup.exe` with contents `[7]`) adds exactly one
stored-entry zip and no tar. -/
theorem archive_format_per_target_witness :
    (FS.tars
      ⟨[([Component.normal "bundle", Component.normal "nsis",
          Component.normal "App-setup.nsis.zip"], []),
        ([Component.normal "bundle", Component.normal "nsis",
          Component.normal "App-setup.exe"], [7])],
       [[], [Component.normal "bundle"], [Component.normal "bundle", Component.normal "nsis"],
        [], [Component.normal "bundle"], [Component.normal "bundle", Component.normal "nsis"]],
       [([Component.normal "bundle", Component.normal "nsis",
          Component.normal "App-setup.nsis.zip"],
         [⟨"App-setup.exe", CompressionMethod.stored, 0o755, [7]⟩])],
       []⟩ =
     FS.tars ⟨[([Component.normal "bundle", Component.normal "nsis",
                 Component.normal "App-setup.exe"], [7])], [], [], []⟩) ∧
    ∃ new,
      FS.zips
        ⟨[([Component.normal "bundle", Component.normal "nsis",
            Component.normal "App-setup.nsis.zip"], []),
          ([Component.normal "bundle", Component.normal "nsis",
            Component.normal "App-setup.exe"], [7])],
         [[], [Component.normal "bundle"], [Component.normal "bundle", Component.normal "nsis"],
          [], [Component.normal "bundle"], [Component.normal "bundle", Component.normal "nsis"]],
         [([Component.normal "bundle", Component.normal "nsis",
            Component.normal "App-setup.nsis.zip"],
           [⟨"App-setup.exe", CompressionMethod.stored, 0o755, [7]⟩])],
         []⟩ =
        new ++ FS.zips ⟨[([Component.normal "bundle", Component.normal "nsis",
                          Component.normal "App-setup.exe"], [7])], [], [], []⟩ ∧
      ∀ pr ∈ new, ∀ ze ∈ pr.2, ze.compression = CompressionMethod.stored :=
  archive_format_per_target.1 "windows" ⟨"x86_64-pc-windows-msvc", WebviewInstallMode.skip⟩
    ⟨Except.ok [], Except.ok []⟩
    ⟨[([Component.normal "bundle", Component.normal "nsis",
        Component.normal "App-setup.exe"], [7])], [], [], []⟩
    [⟨PackageType.nsis, [[Component.normal "bundle", Component.normal "nsis",
                          Component.normal "App-setup.exe"]]⟩]
    ⟨[([Component.normal "bundle", Component.normal "nsis",
        Component.normal "App-setup.nsis.zip"], []),
      ([Component.normal "bundle", Component.normal "nsis",
        Component.normal "App-setup.exe"], [7])],
     [[], [Component.normal "bundle"], [Component.normal "bundle", Component.normal "nsis"],
      [], [Component.normal "bundle"], [Component.normal "bundle", Component.normal "nsis"]],
     [([Component.normal "bundle", Component.normal "nsis",
        Component.normal "App-setup.nsis.zip"],
       [⟨"App-setup.exe", CompressionMethod.stored, 0o755, [7]⟩])],
     []⟩
    [[Component.normal "bundle", Component.normal "nsis",
      Component.normal "App-setup.nsis.zip"]]
    (by decide)

/-- C7: on success `bundle_update_windows` returns exactly the archive
of every selected source, in processing (input) order; a failed
selection/rebuild aborts the call with that error; a zip failure aborts
the archiving loop with a context-wrapped error; a tar failure aborts
the macOS routine with a context-wrapped error. -/
theorem full_list_fail_fast :
    (∀ (hostOS : String) (settings : Settings) (rb : Rebuilders) (fs : FS)
       (bundles : List Bundle) (fs' : FS) (paths : List Path),
       bundle_update_windows hostOS settings rb fs bundles = Outcome.ok (fs', paths) →
       ∃ srcs, select_installer_paths hostOS settings rb bundles = Except.ok srcs ∧
         paths = srcs.map rewriteDest) ∧
    (∀ (hostOS : String) (settings : Settings) (rb : Rebuilders) (fs : FS)
       (bundles : List Bundle) (e : Error),
       select_installer_paths hostOS settings rb bundles = Except.error e →
       bundle_update_windows hostOS settings rb fs bundles = Outcome.error e) ∧
    (∀ (fs : FS) (source : Path) (rest : List Path) (e : Error),
       create_zip fs source (rewriteDest source) = Outcome.error e →
       archive_installers fs (source :: rest) =
         Outcome.error (Error.context "Failed to zip update bundle" e)) ∧
    (∀ (fs : FS) (bundles : List Bundle) (src : Path) (e : Error),
       macDiscover bundles = some src →
       create_tar fs src (parsePath (displayPath src ++ ".tar.gz")) = Outcome.error e →
       bundle_update_macos fs bundles =
         Outcome.error (Error.context "Failed to tar.gz update directory" e)) := by
  refine ⟨?_, ?_, ?_, ?_⟩
  · intro hostOS settings rb fs bundles fs' paths h
    cases hs : select_installer_paths hostOS settings rb bundles with
    | error e => simp [bundle_update_windows, hs] at h
    | ok srcs =>
      simp only [bundle_update_windows, hs] at h
      obtain ⟨hp, -, -⟩ := archive_installers_ok srcs fs fs' paths h
      exact ⟨srcs, rfl, hp⟩
  · intro hostOS settings rb fs bundles e h
    simp [bundle_update_windows, h]
  · intro fs source rest e h
    exact archive_installers_error rest h
  · intro fs bundles src e hd ht
    simp only [bundle_update_macos, hd]
    simp [ht]

/-- Witness for C7 on the NSIS-bundle scenario of the C6 witness. -/
theorem full_list_fail_fast_witness :
    ∃ srcs,
      select_installer_paths "windows" ⟨"x86_64-pc-windows-msvc", WebviewInstallMode.skip⟩
        ⟨Except.ok [], Except.ok []⟩
        [⟨PackageType.nsis, [[Component.normal "bundle", Component.normal "nsis",
                              Component.normal "App-setup.exe"]]⟩] = Except.ok srcs ∧
      [[Component.normal "bundle", Component.normal "nsis",
        Component.normal "App-setup.nsis.zip"]] = srcs.map rewriteDest :=
  full_list_fail_fast.1 "windows" ⟨"x86_64-pc-windows-msvc", WebviewInstallMode.skip⟩
    ⟨Except.ok [], Except.ok []⟩
    ⟨[([Component.normal "bundle", Component.normal "nsis",
        Component.normal "App-setup.exe"], [7])], [], [], []⟩
    [⟨PackageType.nsis, [[Component.normal "bundle", Component.normal "nsis",
                          Component.normal "App-setup.exe"]]⟩]
    ⟨[([Component.normal "bundle", Component.normal "nsis",
        Component.normal "App-setup.nsis.zip"], []),
      ([Component.normal "bundle", Component.normal "nsis",
        Component.normal "App-setup.exe"], [7])],
     [[], [Component.normal "bundle"], [Component.normal "bundle", Component.normal "nsis"],
      [], [Component.normal "bundle"], [Component.normal "bundle", Component.normal "nsis"]],
     [([Component.normal "bundle", Component.normal "nsis",
        Component.normal "App-setup.nsis.zip"],
       [⟨"App-setup.exe", CompressionMethod.stored, 0o755, [7]⟩])],
     []⟩
    [[Component.normal "bundle", Component.normal "nsis",
      Component.normal "App-setup.nsis.zip"]]
    (by decide)

lemma bundle_update_windows_offline {hostOS : String} {settings : Settings} {rb : Rebuilders}
    {fs : FS} {bundles : List Bundle}
    (h : settings.webview_install_mode = WebviewInstallMode.offlineInstaller ∨
         settings.webview_install_mode = WebviewInstallMode.embedBootstrapper) :
    bundle_update_windows hostOS settings rb fs bundles =
      (match rebuild_installers hostOS rb bundles [] with
       | Except.error e => Outcome.error e
       | Except.ok srcs => archive_installers fs srcs) := by
  simp only [bundle_update_windows, select_installer_paths_offline h]

lemma isEmpty_false_of_ne_nil {α : Type} {l : List α} (h : l ≠ []) : l.isEmpty = false := by
  cases l with
  | nil => exact absurd rfl h
  | cons x xs => rfl

/-- C8: when the webview install mode is OfflineInstaller or
EmbedBootstrapper the installers are rebuilt and the rebuild results are
the archived sources — the installer paths already in the bundle list
are ignored (only the package types matter); otherwise the existing
`WindowsMsi`/`Nsis` bundle paths are reused, and rebuilding happens only
when that reused set is empty. -/
theorem webview_mode_rebuild_policy :
    (∀ (hostOS : String) (settings : Settings) (rb : Rebuilders) (fs : FS)
       (bundles : List Bundle),
       (settings.webview_install_mode = WebviewInstallMode.offlineInstaller ∨
        settings.webview_install_mode = WebviewInstallMode.embedBootstrapper) →
       bundle_update_windows hostOS settings rb fs bundles =
         (match rebuild_installers hostOS rb bundles [] with
          | Except.error e => Outcome.error e
          | Except.ok srcs => archive_installers fs srcs)) ∧
    (∀ (hostOS : String) (settings : Settings) (rb : Rebuilders) (fs : FS)
       (bundles bundles' : List Bundle),
       (settings.webview_install_mode = WebviewInstallMode.offlineInstaller ∨
        settings.webview_install_mode = WebviewInstallMode.embedBootstrapper) →
       bundles.map Bundle.package_type = bundles'.map Bundle.package_type →
       bundle_update_windows hostOS settings rb fs bundles =
         bundle_update_windows hostOS settings rb fs bundles') ∧
    (∀ (hostOS : String) (settings : Settings) (rb : Rebuilders) (fs : FS)
       (bundles : List Bundle),
       settings.webview_install_mode ≠ WebviewInstallMode.offlineInstaller →
       settings.webview_install_mode ≠ WebviewInstallMode.embedBootstrapper →
       ((bundles.filter fun bundle =>
           match bundle.package_type with
           | PackageType.windowsMsi => true
           | PackageType.nsis => true
           | _ => false).flatMap fun bundle => bundle.bundle_paths) ≠ [] →
       bundle_update_windows hostOS settings rb fs bundles =
         archive_installers fs
           ((bundles.filter fun bundle =>
               match bundle.package_type with
               | PackageType.windowsMsi => true
               | PackageType.nsis => true
               | _ => false).flatMap fun bundle => bundle.bundle_paths)) ∧
    (∀ (hostOS : String) (settings : Settings) (rb : Rebuilders) (fs : FS)
       (bundles : List Bundle),
       settings.webview_install_mode ≠ WebviewInstallMode.offlineInstaller →
       settings.webview_install_mode ≠ WebviewInstallMode.embedBootstrapper →
       ((bundles.filter fun bundle =>
           match bundle.package_type with
           | PackageType.windowsMsi => true
           | PackageType.nsis => true
           | _ => false).flatMap fun bundle => bundle.bundle_paths) = [] →
       bundle_update_windows hostOS settings rb fs bundles =
         (match rebuild_installers hostOS rb bundles [] with
          | Except.error e => Outcome.error e
          | Except.ok srcs => archive_installers fs srcs)) := by
  refine ⟨fun hostOS settings rb fs bundles h => bundle_update_windows_offline h,
          ?_, ?_, ?_⟩
  · intro hostOS settings rb fs bundles bundles' h htypes
    rw [bundle_update_windows_offline h, bundle_update_windows_offline h,
      rebuild_installers_only_types bundles bundles' htypes]
  · intro hostOS settings rb fs bundles h1 h2 hne
    rw [bundle_update_windows, select_installer_paths_reuse h1 h2,
      if_neg (by simp [isEmpty_false_of_ne_nil hne])]
  · intro hostOS settings rb fs bundles h1 h2 hnil
    rw [bundle_update_windows, select_installer_paths_reuse h1 h2, hnil]
    rfl

/-- Witness for C8: with OfflineInstaller mode the call equals
archiving the rebuild results. -/
theorem webview_mode_rebuild_policy_witness :
    bundle_update_windows "windows" ⟨"x86_64-pc-windows-msvc", WebviewInstallMode.offlineInstaller⟩
      ⟨Except.ok [], Except.ok []⟩ ⟨[], [], [], []⟩ [] =
      (match rebuild_installers "windows" ⟨Except.ok [], Except.ok []⟩ [] [] with
       | Except.error e => Outcome.error e
       | Except.ok srcs => archive_installers ⟨[], [], [], []⟩ srcs) :=
  webview_mode_rebuild_policy.1 "windows"
    ⟨"x86_64-pc-windows-msvc", WebviewInstallMode.offlineInstaller⟩
    ⟨Except.ok [], Except.ok []⟩ ⟨[], [], [], []⟩ [] (Or.inl rfl)

/-- C9: under the precondition that the destination has a parent and
the source a base name (and is a different path), `create_zip` creates
all missing parent directories of the destination and writes exactly
one archive entry — named after the source's base name, stored without
compression, permission bits `0o755`, holding the source's full bytes;
a missing source file surfaces as an error, not a silent success. -/
theorem create_zip_contract (fs : FS) (src dst pd : Path) (fn : String)
    (hp : parentOf dst = some pd) (hf : fileNameOf src = some fn) (hne : src ≠ dst) :
    (∀ buf, lookupFile fs.files src = some buf →
       ∃ fs', create_zip fs src dst = Outcome.ok (dst, fs') ∧
         fs'.zips = (dst, [⟨fn, CompressionMethod.stored, 0o755, buf⟩]) :: fs.zips ∧
         ∀ d ∈ pathPrefixes pd, d ∈ fs'.dirs) ∧
    (lookupFile fs.files src = none →
       create_zip fs src dst = Outcome.error (Error.ioFailure "failed to open src_file")) := by
  have hfiles : ((FS.create_dir_all fs pd).create_file dst).files =
      (dst, ([] : List Nat)) :: fs.files := by
    simp only [FS.create_file, hp, create_dir_all_files]
  have hlk : lookupFile ((FS.create_dir_all fs pd).create_file dst).files src =
      lookupFile fs.files src := by
    rw [hfiles]
    simp only [lookupFile, if_neg (Ne.symm hne)]
  constructor
  · intro buf hb
    refine ⟨{ files := (dst, []) :: fs.files,
              dirs := (fs.dirs ++ pathPrefixes pd) ++ pathPrefixes pd,
              zips := (dst, [⟨fn, CompressionMethod.stored, 0o755, buf⟩]) :: fs.zips,
              tars := fs.tars }, ?_, rfl, ?_⟩
    · simp only [create_zip, hp, hf]
      rw [hlk, hb]
      simp only [FS.create_file, hp, FS.create_dir_all, create_dir_all_files]
    · intro d hd
      exact List.mem_append.mpr (Or.inr hd)
  · intro hnone
    simp only [create_zip, hp, hf]
    rw [hlk, hnone]

/-- Witness for C9: zipping `a/App.exe` (bytes `[1, 2, 3]`) into
`out/App.zip` on a concrete filesystem. -/
theorem create_zip_contract_witness :
    ∃ fs', create_zip
        ⟨[([Component.normal "a", Component.normal "App.exe"], [1, 2, 3])], [], [], []⟩
        [Component.normal "a", Component.normal "App.exe"]
        [Component.normal "out", Component.normal "App.zip"] =
      Outcome.ok ([Component.normal "out", Component.normal "App.zip"], fs') ∧
      fs'.zips = [([Component.normal "out", Component.normal "App.zip"],
        [⟨"App.exe", CompressionMethod.stored, 0o755, [1, 2, 3]⟩])] ∧
      ∀ d ∈ pathPrefixes [Component.normal "out"], d ∈ fs'.dirs :=
  (create_zip_contract
    ⟨[([Component.normal "a", Component.normal "App.exe"], [1, 2, 3])], [], [], []⟩
    [Component.normal "a", Component.normal "App.exe"]
    [Component.normal "out", Component.normal "App.zip"]
    [Component.normal "out"] "App.exe" (by decide) (by decide) (by decide)).1
    [1, 2, 3] (by decide)

/-- C10: `create_zip` panics (via `expect`) rather than returning an
error when the destination has no parent component or the source has no
file-name component, and never panics when both exist; `create_tar`
panics exactly when the source directory has no file-name component. -/
theorem writer_expect_panics :
    (∀ (fs : FS) (src dst : Path), parentOf dst = none →
       create_zip fs src dst = Outcome.panics "No data in parent") ∧
    (∀ (fs : FS) (src dst : Path) (pd : Path), parentOf dst = some pd →
       fileNameOf src = none →
       create_zip fs src dst = Outcome.panics "Can't extract file name from path") ∧
    (∀ (fs : FS) (src dst : Path) (pd : Path) (fn : String),
       parentOf dst = some pd → fileNameOf src = some fn →
       ∀ m, create_zip fs src dst ≠ Outcome.panics m) ∧
    (∀ (fs : FS) (src dest : Path), fileNameOf src = none →
       create_tar fs src dest = Outcome.panics "Path has no file_name") ∧
    (∀ (fs : FS) (src dest : Path) (fn : String), fileNameOf src = some fn →
       ∀ m, create_tar fs src dest ≠ Outcome.panics m) := by
  refine ⟨fun fs src dst h => by simp [create_zip, h],
          fun fs src dst pd h1 h2 => by simp [create_zip, h1, h2],
          fun fs src dst pd fn h1 h2 m => ?_,
          fun fs src dest h => by simp [create_tar, h],
          fun fs src dest fn h m => ?_⟩
  · simp only [create_zip, h1, h2]
    cases hlk : lookupFile ((FS.create_dir_all fs pd).create_file dst).files src <;>
      simp [hlk]
  · simp only [create_tar, h]
    by_cases hd : src ∈ (fs.create_file dest).dirs <;> simp [hd]

/-- Witness for C10: the two `create_zip` panics and the `create_tar`
panic at concrete paths, and a non-panicking `create_zip` call. -/
theorem writer_expect_panics_witness :
    create_zip ⟨[], [], [], []⟩ [Component.normal "src.exe"] [] =
      Outcome.panics "No data in parent" ∧
    create_zip ⟨[], [], [], []⟩ [] [Component.normal "out", Component.normal "App.zip"] =
      Outcome.panics "Can't extract file name from path" ∧
    create_tar ⟨[], [], [], []⟩ [] [Component.normal "out.tar.gz"] =
      Outcome.panics "Path has no file_name" ∧
    ∀ m, create_zip ⟨[], [], [], []⟩ [Component.normal "src.exe"]
      [Component.normal "out", Component.normal "App.zip"] ≠ Outcome.panics m :=
  ⟨writer_expect_panics.1 ⟨[], [], [], []⟩ [Component.normal "src.exe"] [] (by decide),
   writer_expect_panics.2.1 ⟨[], [], [], []⟩ []
     [Component.normal "out", Component.normal "App.zip"] [Component.normal "out"]
     (by decide) (by decide),
   writer_expect_panics.2.2.2.1 ⟨[], [], [], []⟩ [] [Component.normal "out.tar.gz"] (by decide),
   writer_expect_panics.2.2.1 ⟨[], [], [], []⟩ [Component.normal "src.exe"]
     [Component.normal "out", Component.normal "App.zip"] [Component.normal "out"] "src.exe"
     (by decide) (by decide)⟩

example :
    bundle_project "windows" ⟨"x86_64-pc-windows-msvc", WebviewInstallMode.skip⟩
      ⟨Except.ok [], Except.ok []⟩ ⟨[], [], [], []⟩ [] =
    Outcome.ok (⟨[], [], [], []⟩, []) := by decide

example :
    bundle_project "macos" ⟨"x86_64-unknown-freebsd", WebviewInstallMode.skip⟩
      ⟨Except.ok [], Except.ok []⟩ ⟨[], [], [], []⟩ [] =
    Outcome.error Error.unableToFindProject := by decide

example :
    bundle_update_macos
      ⟨[], [[Component.rootDir, Component.normal "t", Component.normal "App.app"]], [], []⟩
      [⟨PackageType.macOsBundle, [[Component.rootDir, Component.normal "t", Component.normal "App.app"]]⟩] =
    Outcome.ok
      (⟨[([Component.rootDir, Component.normal "t", Component.normal "App.app.tar.gz"], [])],
        [[Component.rootDir, Component.normal "t", Component.normal "App.app"],
         [], [Component.rootDir], [Component.rootDir, Component.normal "t"]],
        [],
        [([Component.rootDir, Component.normal "t", Component.normal "App.app.tar.gz"],
          ⟨"App.app", [Component.rootDir, Component.normal "t", Component.normal "App.app"], false, true⟩)]⟩,
       [[Component.rootDir, Component.normal "t", Component.normal "App.app.tar.gz"]]) := by decide

end TauriUpdater
